import Mathlib

/-!
Verification development for the `client-chroma` goal-orchestration core.

Shallow embedding of the coordination logic found in:
  - `src/services/goal/utils.ts` (`retryWithBackoff`, `isCryptoGoal`,
    `validateOperationResponse`)
  - `src/services/signatures/evm.ts` and `src/services/signatures/solana.ts`
    (`supportsChain`, `signProposal`)
  - `src/services/goal/handlers/*.ts` (`SingleChainGoalHandler`,
    `MultiChainGoalHandler`, `BaseGoalHandler`)
  - `src/services/index.ts` (`ChromaService.processGoals`,
    `ChromaService.handleIntent`)

Remote calls (model oracle, counterparty HTTP replies, chain RPC) are passed
in as parameters; JavaScript truthiness and exception flow are made explicit
(`Except` models a function that can throw).
-/

namespace Chroma

/-! ## Data model (`src/types.ts`) -/

/-- Goal lifecycle status (`GoalStatus` of the host framework). -/
inductive GoalStatus where
  | inProgress
  | done
  | failed
deriving Repr, DecidableEq

/-- `BaseTransaction`: one discrete EVM-style transaction of a proposal. -/
structure BaseTransaction where
  chainId : Option Nat
  toAddr : Option String
  data : Option String
  value : Option Nat
deriving Repr, DecidableEq

/-- The `transaction` field of a proposal: `BaseTransaction` plus the
Solana-specific `serializedTransaction` blob.  `Option` models field
absence (`undefined`). -/
structure SingleTransaction where
  chainId : Option Nat
  toAddr : Option String
  data : Option String
  value : Option Nat
  serializedTransaction : Option String
deriving Repr, DecidableEq

/-- `TransactionProposal`: chain id, human-readable call summaries, and
either a list of discrete transactions (EVM) or one serialized
transaction (Solana). -/
structure TransactionProposal where
  titles : List String
  calls : List String
  chainId : Option Nat
  transactions : Option (List BaseTransaction)
  transaction : Option SingleTransaction
deriving Repr, DecidableEq

/-- `TransferIntent`-shaped payload carried by a counterparty reply; for the
workflow logic only its presence matters, so it is kept opaque. -/
abbrev Intent := String

/-- `ChromaResponse`: one structured reply from the counterparty. -/
structure ChromaResponse where
  text : String
  intent : Option Intent
  proposals : Option (List TransactionProposal)
deriving DecidableEq

/-- One objective of a goal (`id`, `completed`); descriptions and the
optional abort status are not needed by the claims below that use this
shape. -/
structure Objective where
  id : String
  completed : Bool
deriving Repr, DecidableEq

/-! ## `retryWithBackoff` (`src/services/goal/utils.ts`, lines 152-187)

The operation is modelled as a function from the 0-based attempt number to
the attempt's outcome (`Except`: `.error` models a throw).  The optional
`onAbort` callback is modelled by its outcome when invoked (`none` = not
supplied).  The run record captures everything observable: the value
returned to the caller (`.error` would mean an exception escaped
`retryWithBackoff` itself), the number of operation invocations, the
`setTimeout` delays performed (ms, in order), and whether `onAbort` ran. -/

/-- `CONSTANTS.RETRY_DELAY_MS`. -/
def RETRY_DELAY_MS : Nat := 1000

/-- `CONSTANTS.MAX_RETRIES`. -/
def MAX_RETRIES : Nat := 3

/-- Observable outcome of one `retryWithBackoff` run. -/
structure RetryRun (E A : Type) where
  result : Except E (Option A)
  attempts : Nat
  delays : List Nat
  onAbortCalled : Bool

/-- Shallow embedding of `retryWithBackoff`.  Mirrors the source: if
`currentAttempt >= maxRetries`, invoke `onAbort` when supplied and return
`null`; otherwise run the operation, returning its result on success, and
on a thrown error wait `RETRY_DELAY_MS * 2 ^ currentAttempt` and recurse
with `currentAttempt + 1`. -/
def retryWithBackoff (op : Nat → Except E A) (onAbort : Option (Except E Unit))
    (maxRetries currentAttempt : Nat) : RetryRun E A :=
  if maxRetries ≤ currentAttempt then
    match onAbort with
    | none => ⟨Except.ok none, 0, [], false⟩
    | some (Except.ok _) => ⟨Except.ok none, 0, [], true⟩
    | some (Except.error e) => ⟨Except.error e, 0, [], true⟩
  else
    match op currentAttempt with
    | Except.ok a => ⟨Except.ok (some a), 1, [], false⟩
    | Except.error _ =>
      let r := retryWithBackoff op onAbort maxRetries (currentAttempt + 1)
      ⟨r.result, r.attempts + 1, RETRY_DELAY_MS * 2 ^ currentAttempt :: r.delays,
        r.onAbortCalled⟩
termination_by maxRetries - currentAttempt
decreasing_by omega

lemma retryWithBackoff_base (op : Nat → Except E A) (onAbort maxRetries cur)
    (h : maxRetries ≤ cur) :
    retryWithBackoff op onAbort maxRetries cur =
      match onAbort with
      | none => ⟨Except.ok none, 0, [], false⟩
      | some (Except.ok _) => ⟨Except.ok none, 0, [], true⟩
      | some (Except.error e) => ⟨Except.error e, 0, [], true⟩ := by
  rw [retryWithBackoff.eq_def]
  simp [h]

lemma retryWithBackoff_ok (op : Nat → Except E A) (onAbort maxRetries cur a)
    (h : cur < maxRetries) (hop : op cur = Except.ok a) :
    retryWithBackoff op onAbort maxRetries cur = ⟨Except.ok (some a), 1, [], false⟩ := by
  rw [retryWithBackoff.eq_def]
  simp [Nat.not_le.mpr h, hop]

lemma retryWithBackoff_err (op : Nat → Except E A) (onAbort maxRetries cur e)
    (h : cur < maxRetries) (hop : op cur = Except.error e) :
    retryWithBackoff op onAbort maxRetries cur =
      let r := retryWithBackoff op onAbort maxRetries (cur + 1)
      ⟨r.result, r.attempts + 1, RETRY_DELAY_MS * 2 ^ cur :: r.delays, r.onAbortCalled⟩ := by
  conv_lhs => rw [retryWithBackoff.eq_def]
  simp [Nat.not_le.mpr h, hop]

lemma retryWithBackoff_result_ok (op : Nat → Except E A) (onAbort : Option (Except E Unit))
    (hAb : ∀ e, onAbort ≠ some (Except.error e)) :
    ∀ fuel maxRetries cur, maxRetries - cur ≤ fuel →
      ∃ v, (retryWithBackoff op onAbort maxRetries cur).result = Except.ok v := by
  intro fuel
  induction fuel with
  | zero =>
    intro maxRetries cur hc
    rw [retryWithBackoff_base op onAbort maxRetries cur (by omega)]
    match h : onAbort with
    | none => exact ⟨none, rfl⟩
    | some (Except.ok _) => exact ⟨none, rfl⟩
    | some (Except.error e) => exact absurd rfl (hAb e)
  | succ n ih =>
    intro maxRetries cur hc
    by_cases hle : maxRetries ≤ cur
    · rw [retryWithBackoff_base op onAbort maxRetries cur hle]
      match h : onAbort with
      | none => exact ⟨none, rfl⟩
      | some (Except.ok _) => exact ⟨none, rfl⟩
      | some (Except.error e) => exact absurd rfl (hAb e)
    · match hop : op cur with
      | Except.ok a =>
        rw [retryWithBackoff_ok op onAbort maxRetries cur a (by omega) hop]
        exact ⟨some a, rfl⟩
      | Except.error e =>
        rw [retryWithBackoff_err op onAbort maxRetries cur e (by omega) hop]
        exact ih maxRetries (cur + 1) (by omega)

lemma retryWithBackoff_first_success (op : Nat → Except E A) (onAbort : Option (Except E Unit)) :
    ∀ fuel maxRetries cur n a, n - cur ≤ fuel → cur ≤ n → n < maxRetries →
      op n = Except.ok a →
      (∀ m, cur ≤ m → m < n → ∃ e, op m = Except.error e) →
      (retryWithBackoff op onAbort maxRetries cur).result = Except.ok (some a) := by
  intro fuel
  induction fuel with
  | zero =>
    intro maxRetries cur n a hfuel hcn hn hop _
    have hcur : cur = n := by omega
    subst hcur
    rw [retryWithBackoff_ok op onAbort maxRetries cur a hn hop]
  | succ k ih =>
    intro maxRetries cur n a hfuel hcn hn hop hfail
    by_cases hc : cur = n
    · subst hc
      rw [retryWithBackoff_ok op onAbort maxRetries cur a hn hop]
    · obtain ⟨e, he⟩ := hfail cur (le_refl cur) (by omega)
      rw [retryWithBackoff_err op onAbort maxRetries cur e (by omega) he]
      exact ih maxRetries (cur + 1) n a (by omega) (by omega) hn hop
        (fun m hm hmn => hfail m (by omega) hmn)

lemma retryWithBackoff_all_fail (op : Nat → Except E A) (onAbort : Option (Except E Unit))
    (hAb : ∀ e, onAbort ≠ some (Except.error e)) :
    ∀ fuel maxRetries cur, maxRetries - cur ≤ fuel →
      (∀ m, cur ≤ m → m < maxRetries → ∃ e, op m = Except.error e) →
      (retryWithBackoff op onAbort maxRetries cur).result = Except.ok none ∧
      (retryWithBackoff op onAbort maxRetries cur).onAbortCalled = onAbort.isSome := by
  intro fuel
  induction fuel with
  | zero =>
    intro maxRetries cur hc _
    rw [retryWithBackoff_base op onAbort maxRetries cur (by omega)]
    match h : onAbort with
    | none => exact ⟨rfl, rfl⟩
    | some (Except.ok _) => exact ⟨rfl, rfl⟩
    | some (Except.error e) => exact absurd rfl (hAb e)
  | succ k ih =>
    intro maxRetries cur hc hfail
    by_cases hle : maxRetries ≤ cur
    · rw [retryWithBackoff_base op onAbort maxRetries cur hle]
      match h : onAbort with
      | none => exact ⟨rfl, rfl⟩
      | some (Except.ok _) => exact ⟨rfl, rfl⟩
      | some (Except.error e) => exact absurd rfl (hAb e)
    · obtain ⟨e, he⟩ := hfail cur (le_refl cur) (by omega)
      rw [retryWithBackoff_err op onAbort maxRetries cur e (by omega) he]
      exact ih maxRetries (cur + 1) (by omega) (fun m hm hmn => hfail m (by omega) hmn)

/-- C3: on an operation that fails on every invocation, `retryWithBackoff`
with `maxRetries = 3` and base delay 1000 ms invokes the operation exactly
3 times, waits `1000 * 2 ^ attempt` ms after the attempt numbered
`attempt` (0-based), accumulates at least 3000 ms of delay in total
(in fact 7000 ms), and returns `null`. -/
theorem retryWithBackoff_always_failing_three_attempts
    (op : Nat → Except E A) (h : ∀ n, ∃ e, op n = Except.error e) :
    (retryWithBackoff op none MAX_RETRIES 0).attempts = 3 ∧
    (retryWithBackoff op none MAX_RETRIES 0).delays = [1000, 2000, 4000] ∧
    (∀ i, i < 3 → (retryWithBackoff op none MAX_RETRIES 0).delays.getD i 0 =
      RETRY_DELAY_MS * 2 ^ i) ∧
    3000 ≤ (retryWithBackoff op none MAX_RETRIES 0).delays.sum ∧
    (retryWithBackoff op none MAX_RETRIES 0).result = Except.ok none := by
  obtain ⟨e0, he0⟩ := h 0
  obtain ⟨e1, he1⟩ := h 1
  obtain ⟨e2, he2⟩ := h 2
  have h3 : retryWithBackoff op none MAX_RETRIES 3 = ⟨Except.ok none, 0, [], false⟩ :=
    retryWithBackoff_base op none MAX_RETRIES 3 (le_refl 3)
  have h2 : retryWithBackoff op none MAX_RETRIES 2 = ⟨Except.ok none, 1, [4000], false⟩ := by
    rw [retryWithBackoff_err op none MAX_RETRIES 2 e2 (by norm_num [MAX_RETRIES]) he2]
    simp [h3, RETRY_DELAY_MS]
  have h1 : retryWithBackoff op none MAX_RETRIES 1 =
      ⟨Except.ok none, 2, [2000, 4000], false⟩ := by
    rw [retryWithBackoff_err op none MAX_RETRIES 1 e1 (by norm_num [MAX_RETRIES]) he1]
    simp [h2, RETRY_DELAY_MS]
  have h0 : retryWithBackoff op none MAX_RETRIES 0 =
      ⟨Except.ok none, 3, [1000, 2000, 4000], false⟩ := by
    rw [retryWithBackoff_err op none MAX_RETRIES 0 e0 (by norm_num [MAX_RETRIES]) he0]
    simp [h1, RETRY_DELAY_MS]
  refine ⟨by rw [h0], by rw [h0], ?_, by rw [h0]; norm_num, by rw [h0]⟩
  intro i hi
  rw [h0]
  interval_cases i <;> simp [RETRY_DELAY_MS]

theorem retryWithBackoff_always_failing_three_attempts_witness :
    (retryWithBackoff (fun _ => (Except.error () : Except Unit Unit)) none MAX_RETRIES 0).attempts = 3 ∧
    (retryWithBackoff (fun _ => (Except.error () : Except Unit Unit)) none MAX_RETRIES 0).delays = [1000, 2000, 4000] ∧
    (∀ i, i < 3 → (retryWithBackoff (fun _ => (Except.error () : Except Unit Unit)) none MAX_RETRIES 0).delays.getD i 0 =
      RETRY_DELAY_MS * 2 ^ i) ∧
    3000 ≤ (retryWithBackoff (fun _ => (Except.error () : Except Unit Unit)) none MAX_RETRIES 0).delays.sum ∧
    (retryWithBackoff (fun _ => (Except.error () : Except Unit Unit)) none MAX_RETRIES 0).result = Except.ok none :=
  retryWithBackoff_always_failing_three_attempts _ (fun _ => ⟨(), rfl⟩)

/-- C4: `retryWithBackoff` never propagates an exception thrown by the
operation: its own result is always a normal return (`Except.ok`).  It
returns the operation's value on the first successful attempt, and when
every attempt fails it invokes the `onAbort` callback exactly when one is
supplied and returns `null`.  (The callback itself is assumed not to
throw, which is the only way its invocation could escape.) -/
theorem retryWithBackoff_never_propagates
    (op : Nat → Except E A) (onAbort : Option (Except E Unit)) (maxRetries : Nat)
    (hAb : ∀ e, onAbort ≠ some (Except.error e)) :
    (∃ v, (retryWithBackoff op onAbort maxRetries 0).result = Except.ok v) ∧
    (∀ n a, n < maxRetries → op n = Except.ok a →
      (∀ m, m < n → ∃ e, op m = Except.error e) →
      (retryWithBackoff op onAbort maxRetries 0).result = Except.ok (some a)) ∧
    ((∀ n, n < maxRetries → ∃ e, op n = Except.error e) →
      (retryWithBackoff op onAbort maxRetries 0).result = Except.ok none ∧
      (retryWithBackoff op onAbort maxRetries 0).onAbortCalled = onAbort.isSome) := by
  refine ⟨retryWithBackoff_result_ok op onAbort hAb maxRetries maxRetries 0 (by omega), ?_, ?_⟩
  · intro n a hn hop hfail
    exact retryWithBackoff_first_success op onAbort n maxRetries 0 n a (by omega)
      (Nat.zero_le n) hn hop (fun m _ hmn => hfail m hmn)
  · intro hfail
    exact retryWithBackoff_all_fail op onAbort hAb maxRetries maxRetries 0 (by omega)
      (fun m _ hm => hfail m hm)

theorem retryWithBackoff_never_propagates_witness :
    (∃ v, (retryWithBackoff (fun n => if n = 1 then Except.ok 7 else (Except.error () : Except Unit Nat))
      (some (Except.ok ())) 3 0).result = Except.ok v) ∧
    (∀ n a, n < 3 → (fun n => if n = 1 then Except.ok 7 else (Except.error () : Except Unit Nat)) n = Except.ok a →
      (∀ m, m < n → ∃ e, (fun n => if n = 1 then Except.ok 7 else (Except.error () : Except Unit Nat)) m = Except.error e) →
      (retryWithBackoff (fun n => if n = 1 then Except.ok 7 else (Except.error () : Except Unit Nat))
        (some (Except.ok ())) 3 0).result = Except.ok (some a)) ∧
    ((∀ n, n < 3 → ∃ e, (fun n => if n = 1 then Except.ok 7 else (Except.error () : Except Unit Nat)) n = Except.error e) →
      (retryWithBackoff (fun n => if n = 1 then Except.ok 7 else (Except.error () : Except Unit Nat))
        (some (Except.ok ())) 3 0).result = Except.ok none ∧
      (retryWithBackoff (fun n => if n = 1 then Except.ok 7 else (Except.error () : Except Unit Nat))
        (some (Except.ok ())) 3 0).onAbortCalled = (some (Except.ok ()) : Option (Except Unit Unit)).isSome) :=
  retryWithBackoff_never_propagates _ _ 3 (by intro e h; cases h)

/-! ## `isCryptoGoal` (`src/services/goal/utils.ts`, lines 189-214)

The cache is a JS `Map<string, boolean>`, modelled as an association list
from goal id to `Option Bool`: the code first stores `undefined` as an
in-flight marker (`cryptoGoalCache.set(goal.id, undefined)`), then the
oracle's boolean.  `Map.set` replaces the binding for an existing key;
lookup on the association list below agrees with that semantics.  The
expensive `generateTrueOrFalse` call is the `oracle` parameter. -/

/-- `Map.get` (`none` = key absent; `some none` = key present, value
`undefined`). -/
def cacheFind (cache : List (String × Option Bool)) (id : String) : Option (Option Bool) :=
  (cache.find? (fun kv => kv.1 == id)).map (fun kv => kv.2)

/-- `Map.set`: bind `id` to `v`, replacing any previous binding. -/
def cacheSet (cache : List (String × Option Bool)) (id : String) (v : Option Bool) :
    List (String × Option Bool) :=
  (id, v) :: cache.filter (fun kv => !(kv.1 == id))

/-- Observable outcome of one `isCryptoGoal` call: the value returned
(`none` models returning `undefined`), the cache afterwards, and whether
the oracle was invoked. -/
structure CryptoClassification where
  result : Option Bool
  cache : List (String × Option Bool)
  oracleCalled : Bool

/-- Shallow embedding of `isCryptoGoal`: no goal id returns `false`; a
cache hit returns the cached value without the oracle; otherwise the
in-flight marker is stored, the oracle consulted, and its answer cached
and returned. -/
def isCryptoGoal (oracle : Bool) (goalId : Option String)
    (cache : List (String × Option Bool)) : CryptoClassification :=
  match goalId with
  | none => ⟨some false, cache, false⟩
  | some id =>
    match cacheFind cache id with
    | some v => ⟨v, cache, false⟩
    | none =>
      let c1 := cacheSet cache id none
      let c2 := cacheSet c1 id (some oracle)
      ⟨some oracle, c2, true⟩

lemma cacheFind_cacheSet (cache : List (String × Option Bool)) (id : String) (v : Option Bool) :
    cacheFind (cacheSet cache id v) id = some v := by
  simp [cacheFind, cacheSet, List.find?]

/-- C9: an uncached goal id is classified by one oracle call, and once the
call has completed, every later call with the resulting cache returns the
same cached boolean, does not invoke the oracle, and leaves the cache
unchanged — so the classification is computed at most once per goal id
and never changes. -/
theorem isCryptoGoal_memoizes (oracle : Bool) (id : String)
    (cache : List (String × Option Bool)) (h : cacheFind cache id = none) :
    (isCryptoGoal oracle (some id) cache).oracleCalled = true ∧
    (isCryptoGoal oracle (some id) cache).result = some oracle ∧
    (∀ oracle2, isCryptoGoal oracle2 (some id) (isCryptoGoal oracle (some id) cache).cache =
      ⟨some oracle, (isCryptoGoal oracle (some id) cache).cache, false⟩) := by
  refine ⟨by simp [isCryptoGoal, h], by simp [isCryptoGoal, h], ?_⟩
  intro oracle2
  have hc : (isCryptoGoal oracle (some id) cache).cache =
      cacheSet (cacheSet cache id none) id (some oracle) := by
    simp [isCryptoGoal, h]
  rw [hc]
  simp [isCryptoGoal, cacheFind_cacheSet]

theorem isCryptoGoal_memoizes_witness :
    (isCryptoGoal true (some "goal-1") []).oracleCalled = true ∧
    (isCryptoGoal true (some "goal-1") []).result = some true ∧
    (∀ oracle2, isCryptoGoal oracle2 (some "goal-1") (isCryptoGoal true (some "goal-1") []).cache =
      ⟨some true, (isCryptoGoal true (some "goal-1") []).cache, false⟩) :=
  isCryptoGoal_memoizes true "goal-1" [] (by simp [cacheFind])

/-! ## Signer routing (`evm.ts` line 50-53, `solana.ts` line 81-84,
`SingleChainGoalHandler.getSignatureHandler`, handler order `[evm, solana]`)

`EVMSignatureHandler.supportsChain` is
`!proposal.transaction?.serializedTransaction` (JS truthiness: the field
must exist and be a non-empty string to be truthy).
`SolanaSignatureHandler.supportsChain` is
`'serializedTransaction' in proposal.transaction`, which throws a
`TypeError` when `transaction` is `undefined`.
`getSignatureHandler` takes the first handler of `[evm, solana]` whose
predicate holds and throws `'No signature handler found for chain'` when
none does. -/

/-- JS truthiness of an optional string: present and non-empty. -/
def strTruthy : Option String → Bool
  | none => false
  | some s => !s.isEmpty

/-- Truthiness of `proposal.transaction?.serializedTransaction`. -/
def serializedTruthy (p : TransactionProposal) : Bool :=
  match p.transaction with
  | none => false
  | some t => strTruthy t.serializedTransaction

/-- `EVMSignatureHandler.supportsChain`. -/
def evmSupportsChain (p : TransactionProposal) : Bool :=
  !serializedTruthy p

/-- The chain family of a selected signature handler. -/
inductive SignerKind where
  | evm
  | solana
deriving Repr, DecidableEq

/-- Errors the routing can raise. -/
inductive RouteError where
  | typeError
  | noSignerFound
deriving Repr, DecidableEq

/-- `SolanaSignatureHandler.supportsChain` (`'in'` on `undefined` throws). -/
def solanaSupportsChain (p : TransactionProposal) : Except RouteError Bool :=
  match p.transaction with
  | none => Except.error RouteError.typeError
  | some t => Except.ok t.serializedTransaction.isSome

/-- `SingleChainGoalHandler.getSignatureHandler`:
`signatureHandlers.find(h => h.supportsChain(proposal))` over
`[evmHandler, solanaHandler]`, throwing `noSignerFound` when the find
yields no handler. -/
def getSignatureHandler (p : TransactionProposal) : Except RouteError SignerKind :=
  if evmSupportsChain p then Except.ok SignerKind.evm
  else
    match solanaSupportsChain p with
    | Except.error e => Except.error e
    | Except.ok true => Except.ok SignerKind.solana
    | Except.ok false => Except.error RouteError.noSignerFound

/-- C1 counterexample: a proposal with neither a `transactions` array nor a
`transaction` blob is routed to the EVM handler (whose predicate is
vacuously true), not to the `'No signature handler found'` error the
claim requires. -/
theorem getSignatureHandler_neither_selects_evm :
    getSignatureHandler ⟨[], [], none, none, none⟩ = Except.ok SignerKind.evm ∧
    getSignatureHandler ⟨[], [], none, none, none⟩ ≠ Except.error RouteError.noSignerFound := by
  constructor
  · rfl
  · intro h
    simp [getSignatureHandler, evmSupportsChain, serializedTruthy] at h

/-- C1 (amended): a proposal whose `transaction` carries a non-empty
`serializedTransaction` is routed to the Solana handler; every other
proposal — one with a `transactions` array, one with neither field, or one
whose `serializedTransaction` is empty — is routed to the EVM handler; the
`'No signature handler found'` error is never raised. -/
theorem getSignatureHandler_routing (p : TransactionProposal) :
    (serializedTruthy p = true → getSignatureHandler p = Except.ok SignerKind.solana) ∧
    (serializedTruthy p = false → getSignatureHandler p = Except.ok SignerKind.evm) ∧
    (∀ e, getSignatureHandler p ≠ Except.error e) := by
  match hp : p.transaction with
  | none =>
    refine ⟨?_, ?_, ?_⟩ <;>
      simp [getSignatureHandler, evmSupportsChain, serializedTruthy, hp]
  | some t =>
    match hs : t.serializedTransaction with
    | none =>
      refine ⟨?_, ?_, ?_⟩ <;>
        simp [getSignatureHandler, evmSupportsChain, serializedTruthy, strTruthy,
          solanaSupportsChain, hp, hs]
    | some s =>
      by_cases he : s.isEmpty <;>
        refine ⟨?_, ?_, ?_⟩ <;>
          simp [getSignatureHandler, evmSupportsChain, serializedTruthy, strTruthy,
            solanaSupportsChain, hp, hs, he]

theorem getSignatureHandler_routing_witness :
    serializedTruthy ⟨[], [], none, none, some ⟨none, none, none, none, some "c2ln"⟩⟩ = true ∧
    getSignatureHandler ⟨[], [], none, none, some ⟨none, none, none, none, some "c2ln"⟩⟩ =
      Except.ok SignerKind.solana :=
  ⟨by decide, (getSignatureHandler_routing _).1 (by decide)⟩

/-! ## `handleOperation` (`SingleChainGoalHandler`, handlers/singleChain.ts
lines 157-196) and `validateOperationResponse` (`utils.ts` lines 244-333)

`validateOperationResponse` returns a record `{ isValid: boolean, reason:
string }` (fast-path approval for bridge/withdraw intents, else a lenient
model-based check that also defaults to approval on internal error).  The
caller binds it to `isValidIntent` and tests `if (!isValidIntent)` — the
Boolean negation of a JS object, which is always `false`.  One attempt of
the `handleOperation` closure is embedded below with the remote pieces
(generated message, counterparty reply, validator verdict) as parameters. -/

/-- The record returned by `validateOperationResponse`. -/
structure ValidationResult where
  isValid : Bool
  reason : String
deriving Repr, DecidableEq

/-- JS truthiness of the validation record: an object value (never `null` /
`undefined` here, since `validateOperationResponse` returns a record on
every path, including its catch) is always truthy. -/
def jsObjTruthy (_v : ValidationResult) : Bool :=
  true

/-- Exceptions one `handleOperation` attempt can throw into
`retryWithBackoff`. -/
inductive OpStepError where
  | noIntent
  | invalidIntent
deriving Repr, DecidableEq

/-- Observable outcome of one successful `handleOperation` attempt: the
value returned to `retryWithBackoff`, the reply stored as the goal's
working response, and whether `present-operation` was completed. -/
structure OperationAttemptOutcome where
  value : Bool
  stored : Option ChromaResponse
  presentOperationCompleted : Bool
deriving DecidableEq

/-- One attempt of the `handleOperation` closure: falsy generated message
returns `false`; a reply without an intent throws; then the verdict record
is tested with `if (!isValidIntent)` (JS truthiness), and the attempt
stores the reply, completes `present-operation` and returns `true`. -/
def handleOperationAttempt (operationMessage : Option String)
    (reply : List ChromaResponse) (validation : ValidationResult) :
    Except OpStepError OperationAttemptOutcome :=
  if strTruthy operationMessage = false then Except.ok ⟨false, none, false⟩
  else
    match reply.find? (fun r => r.intent.isSome) with
    | none => Except.error OpStepError.noIntent
    | some rIntent =>
      if jsObjTruthy validation = false then Except.error OpStepError.invalidIntent
      else Except.ok ⟨true, some rIntent, true⟩

/-- C2: the `present-operation` attempt stores the reply and completes the
objective for EVERY validator verdict — including `isValid = false` —
because `if (!isValidIntent)` tests the truthiness of the returned
`{isValid, reason}` record, which is always truthy; the
`'Invalid intent received'` rejection is unreachable. -/
theorem handleOperation_ignores_validator_verdict
    (msg : Option String) (reply : List ChromaResponse) (validation : ValidationResult)
    (r : ChromaResponse) (hmsg : strTruthy msg = true)
    (hr : reply.find? (fun x => x.intent.isSome) = some r) :
    handleOperationAttempt msg reply validation = Except.ok ⟨true, some r, true⟩ ∧
    handleOperationAttempt msg reply validation ≠ Except.error OpStepError.invalidIntent := by
  constructor
  · simp [handleOperationAttempt, hmsg, hr, jsObjTruthy]
  · intro h
    simp [handleOperationAttempt, hmsg, hr, jsObjTruthy] at h

theorem handleOperation_ignores_validator_verdict_witness :
    handleOperationAttempt (some "transfer 1 USDC") [⟨"reply", some "intent-1", none⟩]
      ⟨false, "chain mismatch"⟩ =
      Except.ok ⟨true, some ⟨"reply", some "intent-1", none⟩, true⟩ ∧
    handleOperationAttempt (some "transfer 1 USDC") [⟨"reply", some "intent-1", none⟩]
      ⟨false, "chain mismatch"⟩ ≠ Except.error OpStepError.invalidIntent :=
  handleOperation_ignores_validator_verdict _ _ _ _ (by decide) (by decide)

/-! ## `ChromaService.handleIntent` (`src/services/index.ts`, lines 601-670)

The confirm-intent step of the service workflow: with a stored response
lacking proposals but carrying an intent, it sends a confirmation message
raced against a 30 s timeout; a reply carrying proposals completes
`confirm-intent` and moves on to `process-proposal`; otherwise it resets
every objective except `introduce-agent`, persists the goal
(`updateGoal`), and re-enters processing at `present-operation`.  The
counterparty exchange is the `confirmReply` parameter (`none` = the
timeout won the race or the send threw). -/

/-- `ChromaService.INTENT_CONFIRMATION_TIMEOUT` (ms). -/
def INTENT_CONFIRMATION_TIMEOUT : Nat := 30000

/-- `completeObjective`: mark the named objective completed. -/
def completeObjectiveIn (objs : List Objective) (objectiveId : String) : List Objective :=
  objs.map (fun o => if o.id = objectiveId then { o with completed := true } else o)

/-- The recovery loop of `handleIntent`: every objective except
`introduce-agent` is re-opened. -/
def resetObjectivesExceptIntro (objs : List Objective) : List Objective :=
  objs.map (fun o => if o.id = "introduce-agent" then o else { o with completed := false })

/-- Observable outcome of one `handleIntent` call: the goal's objectives
afterwards, whether `updateGoal` persisted them, the stored working
response afterwards, and which objective the tail call to
`processObjective` re-enters (if any). -/
structure IntentStepResult where
  objectives : List Objective
  persistedGoal : Bool
  storedAfter : Option ChromaResponse
  next : Option String
deriving DecidableEq

/-- Shallow embedding of `ChromaService.handleIntent`. -/
def serviceHandleIntent (stored : Option ChromaResponse)
    (confirmReply : Option (List ChromaResponse)) (objs : List Objective) :
    IntentStepResult :=
  match stored with
  | none => ⟨objs, false, none, none⟩
  | some r =>
    if r.proposals.isSome then
      ⟨completeObjectiveIn objs "confirm-intent",
        objs.any (fun o => o.id = "confirm-intent"), some r, some "process-proposal"⟩
    else if r.intent.isSome then
      match confirmReply with
      | some rs =>
        match rs.find? (fun x => x.proposals.isSome) with
        | some rp =>
          ⟨completeObjectiveIn objs "confirm-intent",
            objs.any (fun o => o.id = "confirm-intent"), some rp, some "process-proposal"⟩
        | none => ⟨resetObjectivesExceptIntro objs, true, some r, some "present-operation"⟩
      | none => ⟨resetObjectivesExceptIntro objs, true, some r, some "present-operation"⟩
    else ⟨objs, false, some r, none⟩

/-- C5: with a stored intent and no proposal reply within the 30 s timeout,
`handleIntent` resets every objective except `introduce-agent` to
`completed = false` (objectives named `introduce-agent` are kept as they
were), persists the updated goal, and restarts processing at
`present-operation`. -/
theorem serviceHandleIntent_timeout_restarts
    (r : ChromaResponse) (objs : List Objective)
    (hp : r.proposals = none) (hi : r.intent.isSome = true) :
    (serviceHandleIntent (some r) none objs).objectives = resetObjectivesExceptIntro objs ∧
    (∀ o ∈ (serviceHandleIntent (some r) none objs).objectives,
      o.id ≠ "introduce-agent" → o.completed = false) ∧
    (∀ o ∈ objs, o.id = "introduce-agent" →
      o ∈ (serviceHandleIntent (some r) none objs).objectives) ∧
    (serviceHandleIntent (some r) none objs).persistedGoal = true ∧
    (serviceHandleIntent (some r) none objs).next = some "present-operation" ∧
    INTENT_CONFIRMATION_TIMEOUT = 30000 := by
  have hres : serviceHandleIntent (some r) none objs =
      ⟨resetObjectivesExceptIntro objs, true, some r, some "present-operation"⟩ := by
    simp [serviceHandleIntent, hp, hi]
  refine ⟨by rw [hres], ?_, ?_, by rw [hres], by rw [hres], rfl⟩
  · intro o ho hne
    rw [hres] at ho
    simp only [resetObjectivesExceptIntro, List.mem_map] at ho
    obtain ⟨a, _, rfl⟩ := ho
    by_cases ha : a.id = "introduce-agent"
    · simp [ha] at hne
    · simp [ha]
  · intro o ho hintro
    rw [hres]
    simp only [resetObjectivesExceptIntro, List.mem_map]
    exact ⟨o, ho, by simp [hintro]⟩

theorem serviceHandleIntent_timeout_restarts_witness :
    (serviceHandleIntent (some ⟨"", some "intent-1", none⟩) none
      [⟨"introduce-agent", true⟩, ⟨"present-operation", true⟩,
       ⟨"confirm-intent", false⟩, ⟨"process-proposal", false⟩]).objectives =
      resetObjectivesExceptIntro
        [⟨"introduce-agent", true⟩, ⟨"present-operation", true⟩,
         ⟨"confirm-intent", false⟩, ⟨"process-proposal", false⟩] ∧
    (∀ o ∈ (serviceHandleIntent (some ⟨"", some "intent-1", none⟩) none
      [⟨"introduce-agent", true⟩, ⟨"present-operation", true⟩,
       ⟨"confirm-intent", false⟩, ⟨"process-proposal", false⟩]).objectives,
      o.id ≠ "introduce-agent" → o.completed = false) ∧
    (∀ o ∈ [(⟨"introduce-agent", true⟩ : Objective), ⟨"present-operation", true⟩,
       ⟨"confirm-intent", false⟩, ⟨"process-proposal", false⟩], o.id = "introduce-agent" →
      o ∈ (serviceHandleIntent (some ⟨"", some "intent-1", none⟩) none
        [⟨"introduce-agent", true⟩, ⟨"present-operation", true⟩,
         ⟨"confirm-intent", false⟩, ⟨"process-proposal", false⟩]).objectives) ∧
    (serviceHandleIntent (some ⟨"", some "intent-1", none⟩) none
      [⟨"introduce-agent", true⟩, ⟨"present-operation", true⟩,
       ⟨"confirm-intent", false⟩, ⟨"process-proposal", false⟩]).persistedGoal = true ∧
    (serviceHandleIntent (some ⟨"", some "intent-1", none⟩) none
      [⟨"introduce-agent", true⟩, ⟨"present-operation", true⟩,
       ⟨"confirm-intent", false⟩, ⟨"process-proposal", false⟩]).next =
      some "present-operation" ∧
    INTENT_CONFIRMATION_TIMEOUT = 30000 :=
  serviceHandleIntent_timeout_restarts ⟨"", some "intent-1", none⟩ _ (by decide) (by decide)

/-! ## `MultiChainGoalHandler.handleBridgeConfirmation`
(`src/services/goal/types.ts` region, lines 483-533)

The polling loop queries the destination-chain balance, extracts the token
amount (`extractTokenAmounts(...).tokenAmount`, then `parseFloat(...) > 0`),
and completes `wait-for-chain-b-confirmation` on the first positive
balance; otherwise it sleeps `checkInterval` ms and doubles the interval,
capped at 60 s, until 40 minutes have elapsed, at which point it throws
`'Bridge confirmation timed out'`.  The oracle parameter maps the 0-based
query number to the extracted amount (`none` = no amount extracted; the
amount is a rational standing for the parsed decimal).  Time advances only
by the performed waits (the remote calls' own latency is not modelled,
which only shortens the query schedule). -/

/-- `MAX_BRIDGE_WAIT_TIME_MS` (40 minutes). -/
def MAX_BRIDGE_WAIT_TIME_MS : Nat := 40 * 60 * 1000

/-- `BRIDGE_INITIAL_CHECK_INTERVAL_MS` (10 seconds). -/
def BRIDGE_INITIAL_CHECK_INTERVAL_MS : Nat := 10 * 1000

/-- `checkInterval = Math.min(checkInterval * 2, 60000)`. -/
def nextCheckInterval (i : Nat) : Nat :=
  min (i * 2) 60000

lemma nextCheckInterval_pos (i : Nat) (h : 0 < i) : 0 < nextCheckInterval i := by
  simp only [nextCheckInterval]
  omega

/-- Observable outcome of the polling loop: whether the objective was
completed, how many balance queries were made, and the waits performed
between queries (ms, in order). -/
structure BridgeRun where
  completed : Bool
  queriesMade : Nat
  waits : List Nat
deriving Repr, DecidableEq

/-- The `while (Date.now() - startTime < MAX_BRIDGE_WAIT_TIME_MS)` loop.
The positivity of the interval is carried as an argument so the loop's
clock provably advances. -/
def bridgeLoop (oracle : Nat → Option ℚ) (elapsed interval queriesMade : Nat)
    (hpos : 0 < interval) : BridgeRun :=
  if _h : elapsed < MAX_BRIDGE_WAIT_TIME_MS then
    match oracle queriesMade with
    | some a =>
      if 0 < a then ⟨true, 1, []⟩
      else
        let r := bridgeLoop oracle (elapsed + interval) (nextCheckInterval interval)
          (queriesMade + 1) (nextCheckInterval_pos interval hpos)
        ⟨r.completed, r.queriesMade + 1, interval :: r.waits⟩
    | none =>
      let r := bridgeLoop oracle (elapsed + interval) (nextCheckInterval interval)
        (queriesMade + 1) (nextCheckInterval_pos interval hpos)
      ⟨r.completed, r.queriesMade + 1, interval :: r.waits⟩
  else ⟨false, 0, []⟩
termination_by MAX_BRIDGE_WAIT_TIME_MS - elapsed
decreasing_by all_goals omega

/-- One `handleBridgeConfirmation` run of the loop, from a fresh
`startTime` and the initial 10 s interval. -/
def bridgeRun (oracle : Nat → Option ℚ) : BridgeRun :=
  bridgeLoop oracle 0 BRIDGE_INITIAL_CHECK_INTERVAL_MS 0 (by decide)

/-- Terminal status of the `wait-for-chain-b-confirmation` objective. -/
inductive ObjectiveOutcome where
  | completed
  | aborted
deriving Repr, DecidableEq

/-- `handleBridgeConfirmation`: the loop runs inside `retryWithBackoff`,
but `startTime` and `hasBalance` are captured outside it, so when the
first run ends by timeout every retry re-enters with the 40-minute clock
already exhausted and throws again; the outcome is therefore decided by
the first run: completion on a positive balance, otherwise the objective
is marked ABORTED. -/
def handleBridgeConfirmation (oracle : Nat → Option ℚ) : ObjectiveOutcome :=
  if (bridgeRun oracle).completed then ObjectiveOutcome.completed
  else ObjectiveOutcome.aborted

lemma bridgeLoop_timeout (oracle : Nat → Option ℚ) (elapsed interval q : Nat)
    (hpos : 0 < interval) (h : ¬ elapsed < MAX_BRIDGE_WAIT_TIME_MS) :
    bridgeLoop oracle elapsed interval q hpos = ⟨false, 0, []⟩ := by
  rw [bridgeLoop.eq_def]
  simp [h]

lemma bridgeLoop_hit (oracle : Nat → Option ℚ) (elapsed interval q : Nat) (a : ℚ)
    (hpos : 0 < interval) (h : elapsed < MAX_BRIDGE_WAIT_TIME_MS)
    (ha : oracle q = some a) (hqa : 0 < a) :
    bridgeLoop oracle elapsed interval q hpos = ⟨true, 1, []⟩ := by
  rw [bridgeLoop.eq_def]
  simp [h, ha, hqa]

lemma bridgeLoop_miss (oracle : Nat → Option ℚ) (elapsed interval q : Nat) (a : ℚ)
    (hpos : 0 < interval) (h : elapsed < MAX_BRIDGE_WAIT_TIME_MS)
    (ha : oracle q = some a) (hqa : ¬ 0 < a) :
    bridgeLoop oracle elapsed interval q hpos =
      let r := bridgeLoop oracle (elapsed + interval) (nextCheckInterval interval)
        (q + 1) (nextCheckInterval_pos interval hpos)
      ⟨r.completed, r.queriesMade + 1, interval :: r.waits⟩ := by
  conv_lhs => rw [bridgeLoop.eq_def]
  simp [h, ha, hqa]

lemma bridgeLoop_no_extract (oracle : Nat → Option ℚ) (elapsed interval q : Nat)
    (hpos : 0 < interval) (h : elapsed < MAX_BRIDGE_WAIT_TIME_MS)
    (ha : oracle q = none) :
    bridgeLoop oracle elapsed interval q hpos =
      let r := bridgeLoop oracle (elapsed + interval) (nextCheckInterval interval)
        (q + 1) (nextCheckInterval_pos interval hpos)
      ⟨r.completed, r.queriesMade + 1, interval :: r.waits⟩ := by
  conv_lhs => rw [bridgeLoop.eq_def]
  simp [h, ha]

lemma bridgeLoop_never_positive (g : Nat → Option ℚ)
    (hg : ∀ k a, g k = some a → ¬ 0 < a) :
    ∀ fuel elapsed interval q hpos, MAX_BRIDGE_WAIT_TIME_MS - elapsed ≤ fuel →
      (bridgeLoop g elapsed interval q hpos).completed = false := by
  intro fuel
  induction fuel with
  | zero =>
    intro elapsed interval q hpos hf
    rw [bridgeLoop_timeout g elapsed interval q hpos (by omega)]
  | succ k ih =>
    intro elapsed interval q hpos hf
    by_cases h : elapsed < MAX_BRIDGE_WAIT_TIME_MS
    · match ha : g q with
      | some a =>
        rw [bridgeLoop_miss g elapsed interval q a hpos h ha (hg q a ha)]
        exact ih (elapsed + interval) (nextCheckInterval interval) (q + 1)
          (nextCheckInterval_pos interval hpos) (by omega)
      | none =>
        rw [bridgeLoop_no_extract g elapsed interval q hpos h ha]
        exact ih (elapsed + interval) (nextCheckInterval interval) (q + 1)
          (nextCheckInterval_pos interval hpos) (by omega)
    · rw [bridgeLoop_timeout g elapsed interval q hpos h]

/-- C6: with a balance oracle reporting 0 on the first three queries and a
positive amount on the fourth, the poll completes
`wait-for-chain-b-confirmation` on the fourth query after waiting 10 s,
20 s and 40 s between queries; the interval update is capped at 60 s; and
when no positive balance is ever observed the 40-minute ceiling makes the
step a hard failure (objective ABORTED). -/
theorem bridgeConfirmation_fourth_query (oracle : Nat → Option ℚ) (q : ℚ)
    (h0 : oracle 0 = some 0) (h1 : oracle 1 = some 0) (h2 : oracle 2 = some 0)
    (h3 : oracle 3 = some q) (hq : 0 < q) :
    bridgeRun oracle = ⟨true, 4, [10000, 20000, 40000]⟩ ∧
    handleBridgeConfirmation oracle = ObjectiveOutcome.completed ∧
    (∀ i, nextCheckInterval i ≤ 60000) ∧
    (∀ g : Nat → Option ℚ, (∀ k a, g k = some a → ¬ 0 < a) →
      handleBridgeConfirmation g = ObjectiveOutcome.aborted) := by
  have e3 : bridgeLoop oracle 70000 60000 3 (by decide) = ⟨true, 1, []⟩ :=
    bridgeLoop_hit oracle 70000 60000 3 q (by decide) (by decide) h3 hq
  have e2 : bridgeLoop oracle 30000 40000 2 (by decide) = ⟨true, 2, [40000]⟩ := by
    rw [bridgeLoop_miss oracle 30000 40000 2 0 (by decide) (by decide) h2 (by norm_num)]
    have : nextCheckInterval 40000 = 60000 := by decide
    simp only [this]
    rw [show (30000 + 40000 : Nat) = 70000 from rfl]
    simp [e3]
  have e1 : bridgeLoop oracle 10000 20000 1 (by decide) = ⟨true, 3, [20000, 40000]⟩ := by
    rw [bridgeLoop_miss oracle 10000 20000 1 0 (by decide) (by decide) h1 (by norm_num)]
    have : nextCheckInterval 20000 = 40000 := by decide
    simp only [this]
    rw [show (10000 + 20000 : Nat) = 30000 from rfl]
    simp [e2]
  have e0 : bridgeRun oracle = ⟨true, 4, [10000, 20000, 40000]⟩ := by
    show bridgeLoop oracle 0 10000 0 (by decide) = _
    rw [bridgeLoop_miss oracle 0 10000 0 0 (by decide) (by decide) h0 (by norm_num)]
    have : nextCheckInterval 10000 = 20000 := by decide
    simp only [this]
    rw [show (0 + 10000 : Nat) = 10000 from rfl]
    simp [e1]
  refine ⟨e0, by simp [handleBridgeConfirmation, e0], ?_, ?_⟩
  · intro i
    simp only [nextCheckInterval]
    omega
  · intro g hg
    have hc : (bridgeRun g).completed = false :=
      bridgeLoop_never_positive g hg MAX_BRIDGE_WAIT_TIME_MS 0
        BRIDGE_INITIAL_CHECK_INTERVAL_MS 0 (by decide) (by omega)
    simp [handleBridgeConfirmation, hc]

theorem bridgeConfirmation_fourth_query_witness :
    bridgeRun (fun k => if k < 3 then some 0 else some 1) = ⟨true, 4, [10000, 20000, 40000]⟩ ∧
    handleBridgeConfirmation (fun k => if k < 3 then some 0 else some 1) =
      ObjectiveOutcome.completed ∧
    (∀ i, nextCheckInterval i ≤ 60000) ∧
    (∀ g : Nat → Option ℚ, (∀ k a, g k = some a → ¬ 0 < a) →
      handleBridgeConfirmation g = ObjectiveOutcome.aborted) :=
  bridgeConfirmation_fourth_query _ 1 (by norm_num) (by norm_num) (by norm_num)
    (by norm_num) (by norm_num)

/-! ## `ChromaService.processGoals` (`src/services/index.ts`, lines 88-131)

One scheduler tick iterates the in-progress goals: a goal id already in
`processingGoals` is skipped; otherwise `isCryptoGoal` is consulted (its
memo cache gains the id), the id is added to `processingGoals`, and the
goal is handed to the first supporting handler.  Only the catch branch
removes the id again (`clearProcessingState`) and clears every registered
handler's per-goal state (`handler.clearState`); the success and
no-handler paths leave the id in the set.  A handler's effect on the
persisted store is abstracted as `HandlerAct` — every registered handler's
`processObjective` catch runs `failGoal` (persisting FAILED) before
rethrowing, which `handlerActOnError` records. -/

/-- What `handler.processObjective(goal)` did for a goal: returned normally,
threw, or no handler supported the goal; `writes` are the
`updateGoalStatus` calls the handler itself performed. -/
inductive HandlerAct where
  | ok (writes : List (String × GoalStatus))
  | throws (writes : List (String × GoalStatus))
  | missing
deriving DecidableEq

/-- `SingleChainGoalHandler` / `MultiChainGoalHandler` / `CDPGoalHandler`
`processObjective` catch: `await this.failGoal(goal); throw error` — the
handler persists FAILED for the goal and rethrows. -/
def handlerActOnError (g : String) : HandlerAct :=
  HandlerAct.throws [(g, GoalStatus.failed)]

/-- Orchestrator in-memory state plus the log of persisted status writes:
the service's `processingGoals` / `goalResponses` / `cryptoGoalCache`
(ids present in each), the per-goal state of each registered handler
(ids with state), and the `updateGoalStatus` calls issued so far. -/
structure TickState where
  processingGoals : List String
  goalResponses : List String
  cryptoCache : List String
  handlerStates : List (List String)
  statusWrites : List (String × GoalStatus)
deriving Repr, DecidableEq

/-- `Set.add` on the crypto memo cache. -/
def insertId (g : String) (l : List String) : List String :=
  if g ∈ l then l else g :: l

/-- `ChromaService.clearProcessingState`. -/
def clearProcessingState (g : String) (st : TickState) : TickState :=
  { st with
    processingGoals := st.processingGoals.filter (fun x => x ≠ g),
    goalResponses := st.goalResponses.filter (fun x => x ≠ g),
    cryptoCache := st.cryptoCache.filter (fun x => x ≠ g) }

/-- `for (const handler of this.handlers) handler.clearState(goal.id)`. -/
def clearHandlerStates (g : String) (st : TickState) : TickState :=
  { st with handlerStates := st.handlerStates.map (fun hs => hs.filter (fun x => x ≠ g)) }

/-- One iteration of the tick loop for goal id `g`; the Bool records
whether `processObjective` was invoked for `g` during this tick. -/
def processGoalStep (behavior : String → HandlerAct) (crypto : String → Bool)
    (st : TickState) (g : String) : TickState × Bool :=
  if g ∈ st.processingGoals then (st, false)
  else
    let st1 := { st with cryptoCache := insertId g st.cryptoCache }
    if crypto g = false then (st1, false)
    else
      let st2 := { st1 with processingGoals := g :: st1.processingGoals }
      match behavior g with
      | HandlerAct.missing => (st2, false)
      | HandlerAct.ok w => ({ st2 with statusWrites := st2.statusWrites ++ w }, true)
      | HandlerAct.throws w =>
        let st3 := { st2 with statusWrites := st2.statusWrites ++ w }
        (clearHandlerStates g (clearProcessingState g st3), true)

/-- `ChromaService.processGoals`: one tick over the listed in-progress goal
ids, returning the state afterwards and the goals actually processed. -/
def processGoals (behavior : String → HandlerAct) (crypto : String → Bool)
    (goals : List String) (st : TickState) : TickState × List String :=
  goals.foldl
    (fun acc g =>
      let step := processGoalStep behavior crypto acc.1 g
      (step.1, if step.2 then acc.2 ++ [g] else acc.2))
    (st, [])

/-- C7 counterexample: after a tick in which goal `g1` is processed
successfully, its id is STILL in the processing set — ownership does not
end with the tick — and a subsequent tick is a no-op on the goal even
though no processing is in flight (the id is only removed in the error
path). -/
theorem processGoals_ownership_outlives_tick :
    "g1" ∈ ((processGoals (fun _ => HandlerAct.ok []) (fun _ => true) ["g1"]
      ⟨[], [], [], [[], [], []], []⟩).1).processingGoals ∧
    (processGoals (fun _ => HandlerAct.ok []) (fun _ => true) ["g1"]
      ((processGoals (fun _ => HandlerAct.ok []) (fun _ => true) ["g1"]
        ⟨[], [], [], [[], [], []], []⟩).1)).2 = [] := by
  constructor
  · decide
  · decide

/-- C7 (amended): a tick that finds the goal id in the processing set skips
the goal entirely (a second tick against the same id is a no-op), so at
most one handler invocation per goal is in flight; but the id is removed
from the set only when the handler throws — after a successful tick the id
remains in the set and later ticks keep skipping the goal, so exclusive
ownership persists beyond the tick instead of lasting only for its
duration. -/
theorem processGoals_dedup (behavior : String → HandlerAct) (crypto : String → Bool)
    (st : TickState) (g : String) :
    (g ∈ st.processingGoals → processGoals behavior crypto [g] st = (st, [])) ∧
    (g ∉ st.processingGoals → crypto g = true → ∀ w, behavior g = HandlerAct.ok w →
      g ∈ (processGoals behavior crypto [g] st).1.processingGoals ∧
      (processGoals behavior crypto [g] st).2 = [g] ∧
      (processGoals behavior crypto [g] (processGoals behavior crypto [g] st).1).2 = []) ∧
    (g ∉ st.processingGoals → crypto g = true → ∀ w, behavior g = HandlerAct.throws w →
      g ∉ (processGoals behavior crypto [g] st).1.processingGoals) := by
  refine ⟨?_, ?_, ?_⟩
  · intro hmem
    simp [processGoals, processGoalStep, hmem]
  · intro hmem hc w hb
    have hstep : processGoals behavior crypto [g] st =
        ({ st with
            cryptoCache := insertId g st.cryptoCache,
            processingGoals := g :: st.processingGoals,
            statusWrites := st.statusWrites ++ w }, [g]) := by
      simp [processGoals, processGoalStep, hmem, hc, hb]
    refine ⟨by rw [hstep]; exact List.mem_cons_self g st.processingGoals, by rw [hstep], ?_⟩
    rw [hstep]
    simp [processGoals, processGoalStep, List.mem_cons_self]
  · intro hmem hc w hb
    simp [processGoals, processGoalStep, hmem, hc, hb, clearProcessingState,
      clearHandlerStates, List.mem_filter]

theorem processGoals_dedup_witness :
    ("g1" ∈ (⟨["g1"], [], [], [], []⟩ : TickState).processingGoals →
      processGoals (fun _ => HandlerAct.ok []) (fun _ => true) ["g1"]
        ⟨["g1"], [], [], [], []⟩ = (⟨["g1"], [], [], [], []⟩, [])) ∧
    ("g1" ∉ (⟨["g1"], [], [], [], []⟩ : TickState).processingGoals →
      (fun _ => true) "g1" = true → ∀ w, (fun _ => HandlerAct.ok []) "g1" = HandlerAct.ok w →
      "g1" ∈ (processGoals (fun _ => HandlerAct.ok []) (fun _ => true) ["g1"]
        ⟨["g1"], [], [], [], []⟩).1.processingGoals ∧
      (processGoals (fun _ => HandlerAct.ok []) (fun _ => true) ["g1"]
        ⟨["g1"], [], [], [], []⟩).2 = ["g1"] ∧
      (processGoals (fun _ => HandlerAct.ok []) (fun _ => true) ["g1"]
        (processGoals (fun _ => HandlerAct.ok []) (fun _ => true) ["g1"]
          ⟨["g1"], [], [], [], []⟩).1).2 = []) ∧
    ("g1" ∉ (⟨["g1"], [], [], [], []⟩ : TickState).processingGoals →
      (fun _ => true) "g1" = true →
      ∀ w, (fun _ => HandlerAct.ok []) "g1" = HandlerAct.throws w →
      "g1" ∉ (processGoals (fun _ => HandlerAct.ok []) (fun _ => true) ["g1"]
        ⟨["g1"], [], [], [], []⟩).1.processingGoals) :=
  processGoals_dedup (fun _ => HandlerAct.ok []) (fun _ => true) ⟨["g1"], [], [], [], []⟩ "g1"

/-- C8 counterexample: a handler exception reaches the orchestrator only
after the handler's own catch has run `failGoal` — so in the tick in which
`processObjective` throws, the goal's persisted status is written (FAILED),
not left untouched, and the next tick will not re-attempt the goal. -/
theorem processGoals_throw_writes_failed :
    ((processGoals (fun g => handlerActOnError g) (fun _ => true) ["g1"]
      ⟨[], ["g1"], ["g1"], [["g1"], ["g1"], []], []⟩).1).statusWrites =
      [("g1", GoalStatus.failed)] := by
  decide

/-- C8 (amended): when the handler's `processObjective` throws, the
orchestrator's catch removes the goal id from the processing set and from
the service's response and crypto caches and clears that goal's per-goal
state in every registered handler, and the catch itself issues no status
write — the only persisted-status writes of the tick are the handler's
own, and the registered handlers all persist FAILED (`failGoal`) before
rethrowing, so the goal's persisted status does not stay untouched. -/
theorem processGoals_throw_recovery (behavior : String → HandlerAct)
    (crypto : String → Bool) (st : TickState) (g : String)
    (w : List (String × GoalStatus))
    (hmem : g ∉ st.processingGoals) (hc : crypto g = true)
    (hb : behavior g = HandlerAct.throws w) :
    g ∉ (processGoals behavior crypto [g] st).1.processingGoals ∧
    g ∉ (processGoals behavior crypto [g] st).1.goalResponses ∧
    g ∉ (processGoals behavior crypto [g] st).1.cryptoCache ∧
    (∀ hs ∈ (processGoals behavior crypto [g] st).1.handlerStates, g ∉ hs) ∧
    (processGoals behavior crypto [g] st).1.statusWrites = st.statusWrites ++ w ∧
    (behavior g = handlerActOnError g →
      (processGoals behavior crypto [g] st).1.statusWrites =
        st.statusWrites ++ [(g, GoalStatus.failed)]) := by
  have hstep : (processGoals behavior crypto [g] st).1 =
      clearHandlerStates g (clearProcessingState g
        { st with
            cryptoCache := insertId g st.cryptoCache,
            processingGoals := g :: st.processingGoals,
            statusWrites := st.statusWrites ++ w }) := by
    simp [processGoals, processGoalStep, hmem, hc, hb]
  refine ⟨?_, ?_, ?_, ?_, ?_, ?_⟩
  · rw [hstep]; simp [clearHandlerStates, clearProcessingState, List.mem_filter]
  · rw [hstep]; simp [clearHandlerStates, clearProcessingState, List.mem_filter]
  · rw [hstep]; simp [clearHandlerStates, clearProcessingState, List.mem_filter]
  · rw [hstep]
    intro hs hhs
    simp only [clearHandlerStates, clearProcessingState, List.mem_map] at hhs
    obtain ⟨a, _, rfl⟩ := hhs
    simp [List.mem_filter]
  · rw [hstep]; simp [clearHandlerStates, clearProcessingState]
  · intro hfail
    rw [hb] at hfail
    simp only [handlerActOnError, HandlerAct.throws.injEq] at hfail
    rw [hstep]
    simp [clearHandlerStates, clearProcessingState, hfail]

theorem processGoals_throw_recovery_witness :
    "g1" ∉ (processGoals (fun g => handlerActOnError g) (fun _ => true) ["g1"]
      ⟨[], ["g1"], ["g1"], [["g1"], ["g1"], []], ["w0"] |>.map (fun x => (x, GoalStatus.inProgress))⟩).1.processingGoals ∧
    "g1" ∉ (processGoals (fun g => handlerActOnError g) (fun _ => true) ["g1"]
      ⟨[], ["g1"], ["g1"], [["g1"], ["g1"], []], ["w0"] |>.map (fun x => (x, GoalStatus.inProgress))⟩).1.goalResponses ∧
    "g1" ∉ (processGoals (fun g => handlerActOnError g) (fun _ => true) ["g1"]
      ⟨[], ["g1"], ["g1"], [["g1"], ["g1"], []], ["w0"] |>.map (fun x => (x, GoalStatus.inProgress))⟩).1.cryptoCache ∧
    (∀ hs ∈ (processGoals (fun g => handlerActOnError g) (fun _ => true) ["g1"]
      ⟨[], ["g1"], ["g1"], [["g1"], ["g1"], []], ["w0"] |>.map (fun x => (x, GoalStatus.inProgress))⟩).1.handlerStates, "g1" ∉ hs) ∧
    (processGoals (fun g => handlerActOnError g) (fun _ => true) ["g1"]
      ⟨[], ["g1"], ["g1"], [["g1"], ["g1"], []], ["w0"] |>.map (fun x => (x, GoalStatus.inProgress))⟩).1.statusWrites =
      (["w0"].map (fun x => (x, GoalStatus.inProgress))) ++ [("g1", GoalStatus.failed)] ∧
    ((fun g => handlerActOnError g) "g1" = handlerActOnError "g1" →
      (processGoals (fun g => handlerActOnError g) (fun _ => true) ["g1"]
        ⟨[], ["g1"], ["g1"], [["g1"], ["g1"], []], ["w0"] |>.map (fun x => (x, GoalStatus.inProgress))⟩).1.statusWrites =
        (["w0"].map (fun x => (x, GoalStatus.inProgress))) ++ [("g1", GoalStatus.failed)]) :=
  processGoals_throw_recovery _ _ _ "g1" [("g1", GoalStatus.failed)]
    (by decide) rfl rfl

/-! ## `EVMSignatureHandler.signProposal` (`evm.ts` lines 170-196) and
`SingleChainGoalHandler.handleProposal` (lines 259-294)

`signProposal` fetches the EVM account, returns `[]` when the proposal's
`transactions` array is absent or empty, and otherwise processes the
transactions sequentially through `processTransaction` (gas estimation,
broadcast, receipt wait — abstracted as the `f` parameter; a throw aborts
and propagates).  `handleProposal` signs the first stored proposal inside
`retryWithBackoff`; on success it completes `process-proposal` and marks
the goal DONE, on exhausted retries it marks the objective ABORTED. -/

/-- The sequential `for (const tx of proposal.transactions)` loop; the
second component counts `processTransaction` invocations (broadcast
attempts). -/
def runTransactions (f : BaseTransaction → Except E String) :
    List BaseTransaction → Except E (List String) × Nat
  | [] => (Except.ok [], 0)
  | t :: ts =>
    match f t with
    | Except.error e => (Except.error e, 1)
    | Except.ok h =>
      let rest := runTransactions f ts
      (rest.1.map (fun hs => h :: hs), rest.2 + 1)

/-- `EVMSignatureHandler.signProposal`: `getAcct` is the outcome of
`this.getAccount('evm')`; `f` is `processTransaction`. -/
def evmSignProposal (getAcct : Except E Unit) (f : BaseTransaction → Except E String)
    (p : TransactionProposal) : Except E (List String) × Nat :=
  match getAcct with
  | Except.error e => (Except.error e, 0)
  | Except.ok _ =>
    match p.transactions with
    | none => (Except.ok [], 0)
    | some [] => (Except.ok [], 0)
    | some txs => runTransactions f txs

/-- Terminal outcome of the `process-proposal` step. -/
inductive ProposalStepOutcome where
  | noStored
  | done
  | aborted
deriving Repr, DecidableEq

/-- Observable outcome of `handleProposal`: the step's outcome, the
persisted goal-status write (if any), and whether `process-proposal` was
completed. -/
structure ProposalStepResult where
  outcome : ProposalStepOutcome
  statusWrite : Option GoalStatus
  processProposalCompleted : Bool
deriving Repr, DecidableEq

/-- `SingleChainGoalHandler.handleProposal`: no stored proposals is a
no-op; otherwise the first proposal is signed (deterministically, so the
retries of a failing signer all fail and the objective is ABORTED), and a
successful signing completes the objective and the goal (`completeGoal`
persists DONE). -/
def handleProposalStep (stored : Option (List TransactionProposal))
    (signFirst : TransactionProposal → Except E (List String) × Nat) :
    ProposalStepResult :=
  match stored with
  | none => ⟨ProposalStepOutcome.noStored, none, false⟩
  | some ps =>
    match ps.head? with
    | none => ⟨ProposalStepOutcome.aborted, none, false⟩
    | some p =>
      match (signFirst p).1 with
      | Except.ok _ => ⟨ProposalStepOutcome.done, some GoalStatus.done, true⟩
      | Except.error _ => ⟨ProposalStepOutcome.aborted, none, false⟩

/-- C10: for a proposal whose `transactions` list is absent or empty,
`signProposal` (with an available EVM account) raises no error and returns
the empty list of hashes with zero broadcast attempts, and the
`process-proposal` step then treats this as a successful signing:
`process-proposal` is completed and the goal is marked DONE without any
transaction having been broadcast. -/
theorem evmSignProposal_empty_completes_goal
    (getAcct : Except E Unit) (f : BaseTransaction → Except E String)
    (p : TransactionProposal) (hacct : getAcct = Except.ok ())
    (htx : p.transactions = none ∨ p.transactions = some []) :
    evmSignProposal getAcct f p = (Except.ok [], 0) ∧
    handleProposalStep (some [p]) (fun x => evmSignProposal getAcct f x) =
      ⟨ProposalStepOutcome.done, some GoalStatus.done, true⟩ := by
  have hsign : evmSignProposal getAcct f p = (Except.ok [], 0) := by
    rcases htx with h | h <;> simp [evmSignProposal, hacct, h]
  exact ⟨hsign, by simp [handleProposalStep, hsign]⟩

theorem evmSignProposal_empty_completes_goal_witness :
    evmSignProposal (Except.ok ()) (fun _ => (Except.error () : Except Unit String))
      ⟨["title"], [], none, some [], none⟩ = (Except.ok [], 0) ∧
    handleProposalStep (some [⟨["title"], [], none, some [], none⟩])
      (fun x => evmSignProposal (Except.ok ())
        (fun _ => (Except.error () : Except Unit String)) x) =
      ⟨ProposalStepOutcome.done, some GoalStatus.done, true⟩ :=
  evmSignProposal_empty_completes_goal _ _ _ rfl (Or.inr rfl)

end Chroma
